import Mathlib

/-!
Verification of the note-management core of `src/api/routes/notes.py`
(community fact-check notes on promises).

The embedding is shallow and executable:

* The database session is modelled as a `List Note` of stored rows, in
  storage (insertion) order; `query(...).filter(...)` is `List.filter`,
  `.first()` is `List.find?`.
* Python exceptions (`HTTPException`, `json.JSONDecodeError`) are modelled
  with `Option` / explicit result inductives: `none` means the operation
  raises instead of returning a value.
* Python `float` intercepts are modelled as `Int`; every operation the code
  performs on them (comparison, negation, the `or` falsiness test on `0.0`)
  is order-theoretic and is preserved by this choice.
* `datetime` timestamps are modelled as `Nat` (datetimes are totally ordered
  and always truthy, matching `if n.scored_at`).
* Python's `sorted(..., key=...)` is the stable sort by the key; the stable
  sort for a total preorder is unique as a function, and is embedded here as
  `List.insertionSort` over the decidable key order.
* `json.dumps` / `json.loads`, specialised to the only shape this module
  writes (a JSON array of strings), are embedded as the executable codec
  `dumps` / `loads` below.  `dumps` performs the standard JSON string
  escaping (`\"`, `\\`, the short escapes, `\u00XX` for other control
  characters); `loads` accepts exactly a JSON array of string literals
  (with JSON whitespace), rejecting raw control characters inside strings
  as the strict-mode Python decoder does, and rejecting any other JSON
  value (a non-array or non-string element would fail the response model's
  `List[str]` validation anyway, so the whole record fails either way).
-/

/-! ### JSON string-array codec (model of `json.dumps` / `json.loads`) -/

/-- Hex digit for a nibble, lowercase as emitted by `json.dumps`. -/
def toHexDigit (n : Nat) : Char :=
  if n < 10 then Char.ofNat (48 + n) else Char.ofNat (87 + n)

/-- Value of a hex digit character accepted in a `\uXXXX` escape. -/
def fromHexDigit (c : Char) : Option Nat :=
  if '0' ≤ c ∧ c ≤ '9' then some (c.toNat - 48)
  else if 'a' ≤ c ∧ c ≤ 'f' then some (c.toNat - 87)
  else if 'A' ≤ c ∧ c ≤ 'F' then some (c.toNat - 55)
  else none

/-- JSON escape sequence `json.dumps` emits for one character of a string. -/
def encChar (c : Char) : List Char :=
  if c = '"' then ['\\', '"']
  else if c = '\\' then ['\\', '\\']
  else if c = '\n' then ['\\', 'n']
  else if c = '\t' then ['\\', 't']
  else if c = '\r' then ['\\', 'r']
  else if c = Char.ofNat 8 then ['\\', 'b']
  else if c = Char.ofNat 12 then ['\\', 'f']
  else if c.toNat < 32 then
    ['\\', 'u', '0', '0', toHexDigit (c.toNat / 16), toHexDigit (c.toNat % 16)]
  else [c]

/-- Escaped body of a JSON string literal. -/
def encStr : List Char → List Char
  | [] => []
  | c :: cs => encChar c ++ encStr cs

/-- One JSON string literal, quotes included. -/
def encOne (s : List Char) : List Char := '"' :: (encStr s ++ ['"'])

/-- The comma-space separated items of a JSON array, as `json.dumps` writes
them with its default separators. -/
def encItems : List (List Char) → List Char
  | [] => []
  | [s] => encOne s
  | s :: ss => encOne s ++ (',' :: ' ' :: encItems ss)

/-- Model of `json.dumps` on a list of strings. -/
def dumps (xs : List String) : String :=
  ⟨'[' :: (encItems (xs.map (·.data)) ++ [']'])⟩

/-- Prepend a decoded character to the pending parse result. -/
def consFst (c : Char) : Option (List Char × List Char) → Option (List Char × List Char)
  | none => none
  | some (s, r) => some (c :: s, r)

/-- Single-character JSON escapes (everything but `\uXXXX`). -/
def unescape (e : Char) : Option Char :=
  if e = '"' then some '"'
  else if e = '\\' then some '\\'
  else if e = '/' then some '/'
  else if e = 'n' then some '\n'
  else if e = 't' then some '\t'
  else if e = 'r' then some '\r'
  else if e = 'b' then some (Char.ofNat 8)
  else if e = 'f' then some (Char.ofNat 12)
  else none

/-- Parses the body of a JSON string literal (the opening quote already
consumed) up to and including the closing quote; returns the decoded
characters and the unconsumed rest.  Raw control characters are rejected,
as by Python's strict-mode decoder. -/
def parseStr : List Char → Option (List Char × List Char)
  | [] => none
  | c :: rest =>
    if c = '"' then some ([], rest)
    else if c = '\\' then
      match rest with
      | [] => none
      | e :: rest2 =>
        if e = 'u' then
          match rest2 with
          | h1 :: h2 :: h3 :: h4 :: rest3 =>
            match fromHexDigit h1, fromHexDigit h2, fromHexDigit h3, fromHexDigit h4 with
            | some a, some b, some c2, some d =>
              let n := ((a * 16 + b) * 16 + c2) * 16 + d
              if h : n.isValidChar then consFst (Char.ofNatAux n h) (parseStr rest3)
              else none
            | _, _, _, _ => none
          | _ => none
        else
          match unescape e with
          | some c' => consFst c' (parseStr rest2)
          | none => none
    else if c.toNat < 32 then none
    else consFst c (parseStr rest)

/-- A full JSON string literal, opening quote included. -/
def parseJString : List Char → Option (List Char × List Char)
  | '"' :: r => parseStr r
  | _ => none

/-- JSON insignificant whitespace. -/
def isJsonWs (c : Char) : Bool :=
  c = ' ' || c = '\t' || c = '\n' || c = '\r'

/-- Skip leading JSON whitespace. -/
def skipWs : List Char → List Char
  | [] => []
  | c :: r => if isJsonWs c then skipWs r else c :: r

/-- Parses the non-empty element list of a JSON array of strings, up to and
including the closing bracket.  `fuel` only bounds the number of elements;
`loads` passes enough for any input. -/
def parseElems : Nat → List Char → Option (List (List Char) × List Char)
  | 0, _ => none
  | fuel + 1, l =>
    match parseJString l with
    | none => none
    | some (s, r) =>
      match skipWs r with
      | ',' :: r' =>
        match parseElems fuel (skipWs r') with
        | some (ss, r'') => some (s :: ss, r'')
        | none => none
      | ']' :: r' => some ([s], r')
      | _ => none

/-- Model of `json.loads`, specialised to a JSON array of strings (any other
well-formed JSON value is rejected: it would fail the `List[str]` response
validation, so the read fails either way). -/
def loads (s : String) : Option (List String) :=
  match skipWs s.data with
  | '[' :: r =>
    match skipWs r with
    | ']' :: r2 => if skipWs r2 = [] then some [] else none
    | r1 =>
      match parseElems (r1.length + 1) r1 with
      | some (ss, rest) =>
        if skipWs rest = [] then some (ss.map (fun cs => ⟨cs⟩)) else none
      | none => none
  | _ => none

/-! ### Data model

The record shapes live in `api.models` / `api.database`, which are not part
of the given sources; their fields are modelled from the spec's data model
(section 3) exactly as `notes.py` reads and writes them. -/

/-- Modelled from the spec: the initial status value of `api.models.NoteStatus`
(`NoteStatus.NEEDS_MORE_RATINGS.value`); statuses are stored as strings. -/
def NEEDS_MORE_RATINGS : String := "needs_more_ratings"

/-- Modelled from the spec: the community-validated status value of
`api.models.NoteStatus` (`NoteStatus.CURRENTLY_RATED_HELPFUL.value`). -/
def CURRENTLY_RATED_HELPFUL : String := "currently_rated_helpful"

/-- Modelled from the spec: the stored row shape of `api.database.Note`.
`sources` holds the serialized JSON text (`none` = SQL NULL); scored
attributes are nullable until the external scorer writes them. -/
structure Note where
  id : Nat
  promise_id : Nat
  author_id : Int
  summary : String
  content : String
  sources : Option String
  classification : String
  status : String
  helpfulness_score : Option Int
  note_intercept : Option Int
  note_factor : Option Int
  helpful_count : Nat
  somewhat_helpful_count : Nat
  not_helpful_count : Nat
  created_at : Nat
  updated_at : Option Nat
  scored_at : Option Nat
deriving DecidableEq, Repr

/-- Modelled from the spec: `api.models.NoteResponse`, the read model;
`sources` is the decoded list of strings. -/
structure NoteResponse where
  id : Nat
  promise_id : Nat
  author_id : Int
  summary : String
  content : String
  sources : List String
  classification : String
  status : String
  helpfulness_score : Option Int
  note_intercept : Option Int
  note_factor : Option Int
  helpful_count : Nat
  somewhat_helpful_count : Nat
  not_helpful_count : Nat
  created_at : Nat
  updated_at : Option Nat
  scored_at : Option Nat
deriving DecidableEq, Repr

/-- Modelled from the spec: `api.models.ScoredNotesResponse`. -/
structure ScoredNotesResponse where
  promise_id : Nat
  notes : List NoteResponse
  total_notes : Nat
  helpful_notes_count : Nat
  needs_more_ratings_count : Nat
  last_scored_at : Option Nat
  algorithm_version : String
deriving DecidableEq, Repr

/-- Modelled from the spec: `api.models.CreateNoteRequest` (body of
`create_note`); `classification` is a closed enum whose `.value` is a
string. -/
structure CreateNoteRequest where
  promise_id : Nat
  author_id : Int
  summary : String
  content : String
  sources : List String
  classification : String
deriving DecidableEq, Repr

/-- Option-valued traversal: `[f(n) for n in l]` where evaluating `f`
may raise (`none`); any raise fails the whole comprehension. -/
def mapOpt (f : α → Option β) : List α → Option (List β)
  | [] => some []
  | x :: xs =>
    match f x, mapOpt f xs with
    | some y, some ys => some (y :: ys)
    | _, _ => none

/-! ### `_note_to_response` (notes.py:249) -/

/-- The decoded `sources` field:
`json.loads(note.sources) if note.sources else []` — a falsy stored value
(SQL NULL or the empty string) degrades to `[]`; any other value goes
through the JSON decoder, whose failure raises (is `none`). -/
def decodeSources (s : Option String) : Option (List String) :=
  match s with
  | none => some []
  | some s => if s = "" then some [] else loads s

/-- `_note_to_response` (notes.py:249): convert a stored row into the
response model.  `none` models the conversion raising on undecodable
`sources`. -/
def note_to_response (note : Note) : Option NoteResponse :=
  (decodeSources note.sources).map (fun srcs =>
    { id := note.id
      promise_id := note.promise_id
      author_id := note.author_id
      summary := note.summary
      content := note.content
      sources := srcs
      classification := note.classification
      status := note.status
      helpfulness_score := note.helpfulness_score
      note_intercept := note.note_intercept
      note_factor := note.note_factor
      helpful_count := note.helpful_count
      somewhat_helpful_count := note.somewhat_helpful_count
      not_helpful_count := note.not_helpful_count
      created_at := note.created_at
      updated_at := note.updated_at
      scored_at := note.scored_at })

/-! ### `create_note` (notes.py:28) -/

/-- `create_note` (notes.py:28): build the row (serialising `sources` with
`json.dumps` and fixing the initial status), persist it, and return its
response view.  `id` and `now` stand for the identity and creation
timestamp the database assigns on insert/refresh. -/
def create_note (db : List Note) (request : CreateNoteRequest) (id : Nat) (now : Nat) :
    List Note × Option NoteResponse :=
  let note : Note :=
    { id := id
      promise_id := request.promise_id
      author_id := request.author_id
      summary := request.summary
      content := request.content
      sources := some (dumps request.sources)
      classification := request.classification
      status := NEEDS_MORE_RATINGS
      helpfulness_score := none
      note_intercept := none
      note_factor := none
      helpful_count := 0
      somewhat_helpful_count := 0
      not_helpful_count := 0
      created_at := now
      updated_at := none
      scored_at := none }
  (db ++ [note], note_to_response note)

/-! ### List endpoints (notes.py:62, notes.py:102)

`limit: int = Query(default=50, le=100)`: an omitted limit defaults to 50;
FastAPI validates `le=100` before the handler runs and rejects larger
values with a 422 validation error (modelled as `none`).  `ORDER BY` plus
`OFFSET`/`LIMIT` are modelled as a sort followed by `drop`/`take`. -/

/-- `ORDER BY Note.created_at DESC` (notes.py:82). -/
def createdDesc (a b : Note) : Prop := b.created_at ≤ a.created_at

instance : DecidableRel createdDesc := fun a b => by unfold createdDesc; infer_instance

/-- `ORDER BY Note.note_intercept DESC NULLS LAST, Note.created_at DESC`
(notes.py:122), as a lexicographic key order: present intercepts (in
descending order) before NULLs, then creation time descending. -/
def interceptDescNullsLast (a b : Note) : Prop :=
  let key : Note → Nat × Int × Int := fun n =>
    ((if n.note_intercept.isSome then 0 else 1),
     -(n.note_intercept.getD 0),
     -(n.created_at : Int))
  key a ≤ key b

instance : DecidableRel interceptDescNullsLast := fun a b => by
  unfold interceptDescNullsLast; infer_instance

/-- `get_notes_by_author` (notes.py:63): filter by author and optional
status, order newest first, paginate, convert.  `none` models a rejected
request (limit above 100) or a raising conversion. -/
def get_notes_by_author (db : List Note) (author_id : Int) (status : Option String)
    (limit : Option Int) (offset : Nat) : Option (List NoteResponse) :=
  let lim := limit.getD 50
  if lim > 100 then none
  else
    let q := db.filter (fun n => n.author_id == author_id)
    let q := match status with
      | none => q
      | some s => q.filter (fun n => n.status == s)
    let q := List.insertionSort createdDesc q
    mapOpt note_to_response ((q.drop offset).take lim.toNat)

/-- `get_notes_for_promise` (notes.py:103): filter by promise and optional
status, order by intercept descending with NULLs last then newest first,
paginate, convert. -/
def get_notes_for_promise (db : List Note) (promise_id : Nat) (status : Option String)
    (limit : Option Int) (offset : Nat) : Option (List NoteResponse) :=
  let lim := limit.getD 50
  if lim > 100 then none
  else
    let q := db.filter (fun n => n.promise_id == promise_id)
    let q := match status with
      | none => q
      | some s => q.filter (fun n => n.status == s)
    let q := List.insertionSort interceptDescNullsLast q
    mapOpt note_to_response ((q.drop offset).take lim.toNat)

/-! ### `get_scored_notes_for_promise` (notes.py:133) -/

/-- The Python expression `n.note_intercept or -999`: `or` yields the
sentinel both when the intercept is NULL and when it is (falsy) zero. -/
def interceptOrSentinel (x : Option Int) : Int :=
  match x with
  | none => -999
  | some v => if v = 0 then -999 else v

/-- The sort key of notes.py:161-164:
`(0 if n.status == CURRENTLY_RATED_HELPFUL else 1, -(n.note_intercept or -999))`. -/
def sortKey (n : Note) : Nat × Int :=
  ((if n.status = CURRENTLY_RATED_HELPFUL then 0 else 1),
   -(interceptOrSentinel n.note_intercept))

/-- Python's tuple comparison: lexicographic order on the sort key. -/
def sortKeyLE (p q : Nat × Int) : Prop :=
  p.1 < q.1 ∨ (p.1 = q.1 ∧ p.2 ≤ q.2)

/-- Key order on notes for `sorted(notes, key=...)` (notes.py:159). -/
def noteLE (a b : Note) : Prop := sortKeyLE (sortKey a) (sortKey b)

instance : DecidableRel noteLE := fun a b => by
  unfold noteLE sortKeyLE; infer_instance

/-- The ranking step of notes.py:159-165: Python's `sorted` is the stable
sort by the key, embedded as insertion sort over the key order. -/
def sortScoredNotes (notes : List Note) : List Note :=
  List.insertionSort noteLE notes

/-- `max(scored_times)` over the non-NULL `scored_at` values, with the
code's guards (notes.py:152-156): `None` when the note set or the filtered
timestamp list is empty (a datetime is always truthy, so
`if n.scored_at` keeps exactly the non-NULL values). -/
def lastScored (notes : List Note) : Option Nat :=
  if notes.isEmpty then none
  else
    match notes.filterMap (fun n => n.scored_at) with
    | [] => none
    | t :: ts => some (ts.foldl max t)

/-- `get_scored_notes_for_promise` (notes.py:133): fetch the promise's full
note set, compute summary statistics over it, sort it with the tier/intercept
key, and return everything.  `none` models a raising conversion. -/
def get_scored_notes_for_promise (db : List Note) (promise_id : Nat) :
    Option ScoredNotesResponse :=
  let notes := db.filter (fun n => n.promise_id == promise_id)
  let total_notes := notes.length
  let helpful_count := (notes.filter (fun n => n.status == CURRENTLY_RATED_HELPFUL)).length
  let needs_ratings_count := (notes.filter (fun n => n.status == NEEDS_MORE_RATINGS)).length
  let last_scored := lastScored notes
  let sorted_notes := sortScoredNotes notes
  (mapOpt note_to_response sorted_notes).map (fun resps =>
    { promise_id := promise_id
      notes := resps
      total_notes := total_notes
      helpful_notes_count := helpful_count
      needs_more_ratings_count := needs_ratings_count
      last_scored_at := last_scored
      algorithm_version := "1.0.0" })

/-! ### `delete_note` (notes.py:184) -/

/-- Outcome of `delete_note`: the three `HTTPException`s (404 not found,
403 ownership, 400 protected state) or success carrying the updated
store. -/
inductive DeleteResult where
  | notFound
  | ownershipViolation
  | protectedStateViolation
  | deleted (db : List Note)
deriving DecidableEq, Repr

/-- `delete_note` (notes.py:184): existence check, then ownership check,
then the helpful-status guard, then the destructive write. -/
def delete_note (db : List Note) (note_id : Nat) (author_id : Int) : DeleteResult :=
  match db.find? (fun n => n.id == note_id) with
  | none => DeleteResult.notFound
  | some note =>
    if note.author_id ≠ author_id then DeleteResult.ownershipViolation
    else if note.status = CURRENTLY_RATED_HELPFUL then DeleteResult.protectedStateViolation
    else DeleteResult.deleted (db.filter (fun n => !(n.id == note.id)))

/-! ### `get_notes_by_classification` (notes.py:218) -/

/-- Return shape of the classification-stats endpoint: the response dict
with its `classifications` mapping as an association list (one entry per
group the `GROUP BY` produces). -/
structure ClassificationStats where
  promise_id : Nat
  classifications : List (String × Nat)
deriving DecidableEq, Repr

/-- `get_notes_by_classification` (notes.py:218): count notes of the
promise with helpful status, grouped by `classification`.  `GROUP BY`
produces one row per distinct classification among the filtered rows
(first-occurrence order here; SQL leaves group order unspecified), each
with the count of its rows — so no zero-count groups exist. -/
def get_notes_by_classification (db : List Note) (promise_id : Nat) : ClassificationStats :=
  let rows := db.filter (fun n =>
    n.promise_id == promise_id && n.status == CURRENTLY_RATED_HELPFUL)
  { promise_id := promise_id
    classifications :=
      ((rows.map (fun n => n.classification)).dedup).map (fun c =>
        (c, (rows.filter (fun n => n.classification == c)).length)) }

/-! ### Fixtures: total-preorder instances for the ranking key, and
concrete stores used by the examples below -/

instance : IsTotal Note noteLE :=
  ⟨by intro a b; unfold noteLE sortKeyLE; omega⟩

instance : IsTrans Note noteLE :=
  ⟨by intro a b c; unfold noteLE sortKeyLE; omega⟩

/-- A stored row with the given key fields and innocuous defaults for the
rest (valid empty `sources`, zero counters). -/
def mkNote (id promise_id : Nat) (author_id : Int) (classification status : String)
    (note_intercept : Option Int) (scored_at : Option Nat) : Note :=
  { id := id
    promise_id := promise_id
    author_id := author_id
    summary := "s"
    content := "c"
    sources := some "[]"
    classification := classification
    status := status
    helpfulness_score := none
    note_intercept := note_intercept
    note_factor := none
    helpful_count := 0
    somewhat_helpful_count := 0
    not_helpful_count := 0
    created_at := 0
    updated_at := none
    scored_at := scored_at }

/-- A community-validated note by author 1 on promise 1. -/
def helpfulNote : Note :=
  mkNote 1 1 1 "promise_kept" CURRENTLY_RATED_HELPFUL (some 8) (some 100)

/-- An unscored pending note by author 2 on promise 1. -/
def pendingNote : Note :=
  mkNote 2 1 2 "promise_broken" NEEDS_MORE_RATINGS none none

/-- A scored but still pending note by author 3 on promise 1. -/
def pendingNote2 : Note :=
  mkNote 3 1 3 "promise_kept" NEEDS_MORE_RATINGS (some 2) (some 50)

/-- Promise 1 with statuses 2 x NEEDS_MORE_RATINGS + 1 x CURRENTLY_RATED_HELPFUL. -/
def statsExampleDb : List Note := [pendingNote, helpfulNote, pendingNote2]

/-- One helpful "promise_kept" note and one non-helpful "promise_broken" note. -/
def classExampleDb : List Note := [helpfulNote, pendingNote]

/-- Same non-helpful tier as `lowInterceptNote`, but with a NULL intercept. -/
def missingInterceptNote : Note :=
  mkNote 4 1 1 "promise_kept" NEEDS_MORE_RATINGS none none

/-- A note whose intercept lies below the `-999` sentinel. -/
def lowInterceptNote : Note :=
  mkNote 5 1 1 "promise_kept" NEEDS_MORE_RATINGS (some (-1000)) none

/-- A stored row whose `sources` column holds an undecodable value. -/
def corruptSourcesNote : Note :=
  { mkNote 6 1 1 "promise_kept" NEEDS_MORE_RATINGS none none with sources := some "x" }

/-- A stored row whose `sources` column is NULL. -/
def absentSourcesNote : Note :=
  { mkNote 7 1 1 "promise_kept" NEEDS_MORE_RATINGS none none with sources := none }

/-- Equal sort keys to `tieNoteB` (same tier, same intercept). -/
def tieNoteA : Note :=
  mkNote 8 1 1 "promise_kept" NEEDS_MORE_RATINGS (some 3) none

/-- Equal sort keys to `tieNoteA`. -/
def tieNoteB : Note :=
  mkNote 9 1 1 "promise_broken" NEEDS_MORE_RATINGS (some 3) none

/-- What `get_scored_notes_for_promise` returns on an empty store. -/
def emptyScoredResp : ScoredNotesResponse :=
  { promise_id := 1
    notes := []
    total_notes := 0
    helpful_notes_count := 0
    needs_more_ratings_count := 0
    last_scored_at := none
    algorithm_version := "1.0.0" }

/-! ### Round-trip lemmas for the JSON codec -/

theorem fromHexDigit_toHexDigit {n : Nat} (h : n < 16) :
    fromHexDigit (toHexDigit n) = some n := by
  interval_cases n <;> decide

theorem skipWs_cons_of_not_ws {c : Char} {r : List Char} (h : isJsonWs c = false) :
    skipWs (c :: r) = c :: r := by
  simp [skipWs, h]

theorem parseStr_quote (t : List Char) : parseStr ('"' :: t) = some ([], t) := by
  rw [parseStr.eq_def]; simp

theorem parseStr_esc {e : Char} (t : List Char) (h : e ≠ 'u') {c' : Char}
    (hu : unescape e = some c') :
    parseStr ('\\' :: e :: t) = consFst c' (parseStr t) := by
  rw [parseStr.eq_def]
  simp [h, hu]

theorem parseStr_hex (t : List Char) {n : Nat} (hn : n < 256) (hv : n.isValidChar) :
    parseStr ('\\' :: 'u' :: '0' :: '0' :: toHexDigit (n / 16) :: toHexDigit (n % 16) :: t) =
      consFst (Char.ofNatAux n hv) (parseStr t) := by
  rw [parseStr.eq_def]
  have h0 : fromHexDigit '0' = some 0 := by decide
  have ha : fromHexDigit (toHexDigit (n / 16)) = some (n / 16) :=
    fromHexDigit_toHexDigit (by omega)
  have hb : fromHexDigit (toHexDigit (n % 16)) = some (n % 16) :=
    fromHexDigit_toHexDigit (by omega)
  have he : n / 16 * 16 + n % 16 = n := by omega
  have hp : (n / 16 * 16 + n % 16).isValidChar := by rw [he]; exact hv
  have key : ∀ (m : Nat) (hm : m.isValidChar), m = n →
      Char.ofNatAux m hm = Char.ofNatAux n hv := by
    intro m hm hEq
    subst hEq
    rfl
  simp only [h0, ha, hb]
  simp only [Nat.zero_mul, Nat.zero_add, Nat.add_zero]
  rw [dif_pos hp, key _ hp he]
  simp

theorem parseStr_plain {c : Char} (t : List Char) (h1 : c ≠ '"') (h2 : c ≠ '\\')
    (h3 : ¬ c.toNat < 32) :
    parseStr (c :: t) = consFst c (parseStr t) := by
  rw [parseStr.eq_def]
  simp [h1, h2, h3]

theorem parseStr_encChar (c : Char) (t : List Char) :
    parseStr (encChar c ++ t) = consFst c (parseStr t) := by
  by_cases h1 : c = '"'
  · subst h1
    rw [show encChar '"' = ['\\', '"'] from by decide]
    exact parseStr_esc t (by decide) (by decide)
  by_cases h2 : c = '\\'
  · subst h2
    rw [show encChar '\\' = ['\\', '\\'] from by decide]
    exact parseStr_esc t (by decide) (by decide)
  by_cases h3 : c = '\n'
  · subst h3
    rw [show encChar '\n' = ['\\', 'n'] from by decide]
    exact parseStr_esc t (by decide) (by decide)
  by_cases h4 : c = '\t'
  · subst h4
    rw [show encChar '\t' = ['\\', 't'] from by decide]
    exact parseStr_esc t (by decide) (by decide)
  by_cases h5 : c = '\r'
  · subst h5
    rw [show encChar '\r' = ['\\', 'r'] from by decide]
    exact parseStr_esc t (by decide) (by decide)
  by_cases h6 : c = Char.ofNat 8
  · subst h6
    rw [show encChar (Char.ofNat 8) = ['\\', 'b'] from by decide]
    exact parseStr_esc t (by decide) (by decide)
  by_cases h7 : c = Char.ofNat 12
  · subst h7
    rw [show encChar (Char.ofNat 12) = ['\\', 'f'] from by decide]
    exact parseStr_esc t (by decide) (by decide)
  by_cases h8 : c.toNat < 32
  · have hv : c.toNat.isValidChar := Or.inl (by omega)
    have hch : Char.ofNatAux c.toNat hv = c := by
      have := Char.ofNat_toNat c
      rwa [Char.ofNat, dif_pos hv] at this
    rw [show encChar c =
          ['\\', 'u', '0', '0', toHexDigit (c.toNat / 16), toHexDigit (c.toNat % 16)] from by
        simp [encChar, h1, h2, h3, h4, h5, h6, h7, h8]]
    simp only [List.cons_append, List.nil_append]
    rw [parseStr_hex t (by omega) hv, hch]
  · rw [show encChar c = [c] from by simp [encChar, h1, h2, h3, h4, h5, h6, h7, h8],
      List.singleton_append]
    exact parseStr_plain t h1 h2 h8
theorem parseStr_encStr (s : List Char) (t : List Char) :
    parseStr (encStr s ++ ('"' :: t)) = some (s, t) := by
  induction s with
  | nil => simpa [encStr] using parseStr_quote t
  | cons c cs ih =>
    rw [encStr, List.append_assoc, parseStr_encChar, ih]
    rfl

theorem parseJString_encOne (s : List Char) (t : List Char) :
    parseJString (encOne s ++ t) = some (s, t) := by
  rw [encOne]
  simp only [List.cons_append, List.append_assoc, List.singleton_append]
  rw [parseJString]
  exact parseStr_encStr s t

theorem encItems_head_quote (s : List Char) (ss : List (List Char)) :
    ∃ r, encItems (s :: ss) = '"' :: r := by
  cases ss <;> simp [encItems, encOne]

theorem encItems_cons_cons (s s2 : List Char) (ss2 : List (List Char)) :
    encItems (s :: s2 :: ss2) = encOne s ++ (',' :: ' ' :: encItems (s2 :: ss2)) := rfl

theorem encItems_length_ge (xs : List (List Char)) : xs.length ≤ (encItems xs).length := by
  induction xs with
  | nil => simp [encItems]
  | cons s ss ih =>
    cases ss with
    | nil => simp [encItems, encOne]
    | cons s2 ss2 =>
      rw [encItems_cons_cons]
      simp only [List.length_append, List.length_cons]
      simp only [List.length_cons] at ih
      omega

theorem parseElems_encItems (ss : List (List Char)) (s : List Char) (t : List Char) :
    ∀ fuel, ss.length < fuel →
      parseElems fuel (encItems (s :: ss) ++ (']' :: t)) = some (s :: ss, t) := by
  induction ss generalizing s with
  | nil =>
    intro fuel hf
    match fuel, hf with
    | fuel + 1, _ =>
      rw [encItems, parseElems, parseJString_encOne]
      simp [skipWs, isJsonWs]
  | cons s2 ss2 ih =>
    intro fuel hf
    match fuel, hf with
    | fuel + 1, hf =>
      obtain ⟨r, hr⟩ := encItems_head_quote s2 ss2
      have hrec := ih s2 fuel (by simpa using Nat.lt_of_succ_lt_succ hf)
      simp only [List.cons_append] at hrec
      rw [hr] at hrec
      simp only [List.cons_append] at hrec
      rw [encItems_cons_cons]
      simp only [List.append_assoc, List.cons_append]
      rw [parseElems, parseJString_encOne, hr]
      simp only [List.cons_append]
      simp [skipWs, isJsonWs, hrec]
theorem loads_dumps (xs : List String) : loads (dumps xs) = some xs := by
  cases xs with
  | nil => decide
  | cons x rest =>
    rw [loads, dumps]
    have hdata : (⟨'[' :: (encItems ((x :: rest).map (·.data)) ++ [']'])⟩ : String).data
        = '[' :: (encItems ((x :: rest).map (·.data)) ++ [']']) := rfl
    rw [hdata]
    rw [skipWs_cons_of_not_ws (by decide)]
    obtain ⟨r, hr⟩ := encItems_head_quote x.data (rest.map (·.data))
    simp only [List.map_cons] at hr ⊢
    rw [hr, List.cons_append, skipWs_cons_of_not_ws (by decide)]
    have hparse := parseElems_encItems (rest.map (·.data)) x.data []
      (('"' :: (r ++ ']' :: [])).length + 1) (by
        have h1 := encItems_length_ge (x.data :: rest.map (·.data))
        rw [hr] at h1
        simp only [List.length_cons, List.length_map, List.length_append] at h1 ⊢
        omega)
    rw [hr, List.cons_append] at hparse
    split
    · simp_all
    rw [hparse]
    simp only [List.map_cons, List.map_map]
    rw [show ((fun cs => ({ data := cs } : String)) ∘ fun x => x.data) = id from rfl,
      List.map_id, if_pos (show skipWs [] = [] from rfl)]

/-! ### Helper lemmas -/

theorem mapOpt_length {f : α → Option β} :
    ∀ {l : List α} {r : List β}, mapOpt f l = some r → r.length = l.length := by
  intro l
  induction l with
  | nil =>
    intro r h
    simp [mapOpt] at h
    subst h
    rfl
  | cons x xs ih =>
    intro r h
    rw [mapOpt] at h
    match hx : f x, hxs : mapOpt f xs with
    | some y, some ys =>
      rw [hx, hxs] at h
      cases h
      simp [ih hxs]
    | some y, none => rw [hx, hxs] at h; cases h
    | none, some ys => rw [hx, hxs] at h; cases h
    | none, none => rw [hx, hxs] at h; cases h

theorem lastScored_eq_max (notes : List Note) :
    lastScored notes = (notes.filterMap (fun n => n.scored_at)).max? := by
  rw [lastScored]
  cases notes with
  | nil => rfl
  | cons n ns =>
    rw [if_neg (by simp)]
    cases h : (n :: ns).filterMap (fun n => n.scored_at) with
    | nil => rfl
    | cons t ts => rfl

/-! ### Claim theorems -/

/-- C1, counterexample: in `get_scored_notes_for_promise`'s ranking a note
with an absent `note_intercept` does not sort last within its tier, contrary
to the claim: with two same-tier notes, one NULL and one with intercept
-1000, the code keeps the NULL-intercept note first (its sentinel key -999
beats -1000). -/
theorem c1_missing_intercept_not_last :
    missingInterceptNote.status = lowInterceptNote.status ∧
    missingInterceptNote.status ≠ CURRENTLY_RATED_HELPFUL ∧
    missingInterceptNote.note_intercept = none ∧
    lowInterceptNote.note_intercept = some (-1000) ∧
    sortScoredNotes [missingInterceptNote, lowInterceptNote]
      = [missingInterceptNote, lowInterceptNote] := by
  decide

/-- C1, amended: the returned notes are partitioned into the two status
tiers (every tier-0 note precedes every tier-1 note), and within a tier
notes are ordered descending by the effective intercept
`n.note_intercept or -999` — the sentinel `-999` (not negative infinity)
substitutes both for an absent intercept and for an intercept equal to
zero, so such notes sort below intercepts above -999 but above intercepts
below -999. -/
theorem c1_tier_then_sentinel_descending (notes : List Note) :
    (sortScoredNotes notes).Pairwise (fun a b =>
      (a.status = CURRENTLY_RATED_HELPFUL ∧ b.status ≠ CURRENTLY_RATED_HELPFUL) ∨
      ((a.status = CURRENTLY_RATED_HELPFUL ↔ b.status = CURRENTLY_RATED_HELPFUL) ∧
        interceptOrSentinel b.note_intercept ≤ interceptOrSentinel a.note_intercept)) := by
  have hs := List.sorted_insertionSort noteLE notes
  refine hs.imp ?_
  intro a b h
  unfold noteLE sortKeyLE sortKey at h
  dsimp only at h
  by_cases ha : a.status = CURRENTLY_RATED_HELPFUL
  · by_cases hb : b.status = CURRENTLY_RATED_HELPFUL
    · refine Or.inr ⟨iff_of_true ha hb, ?_⟩
      rw [if_pos ha, if_pos hb] at h
      rcases h with h | ⟨-, h2⟩ <;> omega
    · exact Or.inl ⟨ha, hb⟩
  · by_cases hb : b.status = CURRENTLY_RATED_HELPFUL
    · rw [if_neg ha, if_pos hb] at h
      rcases h with h | ⟨h1, -⟩ <;> omega
    · refine Or.inr ⟨iff_of_false ha hb, ?_⟩
      rw [if_neg ha, if_neg hb] at h
      rcases h with h | ⟨-, h2⟩ <;> omega

/-- C2, counterexample: deleting an existing CURRENTLY_RATED_HELPFUL note
does not always fail with the protected-state violation: a requester who is
not the author hits the ownership check first (notes.py:199 precedes
notes.py:202) and gets the ownership violation instead. -/
theorem c2_nonauthor_gets_ownership_error :
    ([helpfulNote].find? (fun n => n.id == 1) = some helpfulNote) ∧
    helpfulNote.status = CURRENTLY_RATED_HELPFUL ∧
    helpfulNote.author_id ≠ (2 : Int) ∧
    delete_note [helpfulNote] 1 2 = DeleteResult.ownershipViolation ∧
    DeleteResult.ownershipViolation ≠ DeleteResult.protectedStateViolation := by
  decide

/-- C2, amended: a deleteNote request on an existing CURRENTLY_RATED_HELPFUL
note always fails — with the protected-state violation when the supplied
author_id is the note's author, and with the ownership violation (which is
checked first) otherwise. -/
theorem c2_helpful_note_never_deletable :
    ∀ (db : List Note) (nid : Nat) (aid : Int) (note : Note),
      db.find? (fun n => n.id == nid) = some note →
      note.status = CURRENTLY_RATED_HELPFUL →
      delete_note db nid aid =
        (if note.author_id = aid then DeleteResult.protectedStateViolation
         else DeleteResult.ownershipViolation) := by
  intro db nid aid note h hs
  unfold delete_note
  rw [h]
  by_cases ha : note.author_id = aid
  · simp [ha, hs]
  · simp [ha]

/-- C2, witness: the amended theorem applied to a store holding one helpful
note, requested by its own author. -/
theorem c2_helpful_note_never_deletable_witness :
    delete_note [helpfulNote] 1 1 =
      (if helpfulNote.author_id = (1 : Int) then DeleteResult.protectedStateViolation
       else DeleteResult.ownershipViolation) :=
  c2_helpful_note_never_deletable [helpfulNote] 1 1 helpfulNote (by decide) (by decide)

/-- C3, counterexample: a corrupt (undecodable) `sources` value does not
degrade to an empty list: `json.loads(note.sources) if note.sources else []`
only guards the falsy (absent) case, so the decoder raises and the whole
record conversion fails. -/
theorem c3_corrupt_sources_fail_record :
    corruptSourcesNote.sources = some "x" ∧
    note_to_response corruptSourcesNote = none := by
  decide

/-- C3, amended: only an absent (NULL or empty-string, i.e. falsy) stored
`sources` value degrades to the empty list on read; a non-empty undecodable
value is not degraded — the JSON decoder's failure fails the whole record
conversion. -/
theorem c3_absent_sources_degrade_corrupt_fail :
    ∀ note : Note,
      ((note.sources = none ∨ note.sources = some "") →
        ∃ r, note_to_response note = some r ∧ r.sources = []) ∧
      (∀ s, note.sources = some s → s ≠ "" → loads s = none →
        note_to_response note = none) := by
  intro note
  constructor
  · intro h
    have hd : decodeSources note.sources = some [] := by
      rcases h with h | h <;> rw [h] <;> rfl
    rw [note_to_response, hd]
    exact ⟨_, rfl, rfl⟩
  · intro s hs hne hl
    have hd : decodeSources (some s) = none := by
      show (if s = "" then some [] else loads s) = none
      rw [if_neg hne, hl]
    rw [note_to_response, hs, hd]
    rfl

/-- C3, witness: the amended theorem applied to a NULL-`sources` row and to
an undecodable-`sources` row. -/
theorem c3_absent_sources_degrade_corrupt_fail_witness :
    (∃ r, note_to_response absentSourcesNote = some r ∧ r.sources = []) ∧
    note_to_response corruptSourcesNote = none :=
  ⟨(c3_absent_sources_degrade_corrupt_fail absentSourcesNote).1 (Or.inl (by decide)),
   (c3_absent_sources_degrade_corrupt_fail corruptSourcesNote).2 "x" (by decide)
     (by decide) (by decide)⟩

/-- C4: a deleteNote request with an author_id different from the note's
author always fails with the ownership violation, whatever the note's
status; and a missing note yields not-found regardless of the supplied
author_id, i.e. before any ownership or status check can act. -/
theorem c4_existence_then_ownership :
    ∀ (db : List Note) (nid : Nat) (aid : Int),
      (db.find? (fun n => n.id == nid) = none →
        delete_note db nid aid = DeleteResult.notFound) ∧
      (∀ note, db.find? (fun n => n.id == nid) = some note →
        note.author_id ≠ aid →
        delete_note db nid aid = DeleteResult.ownershipViolation) := by
  intro db nid aid
  constructor
  · intro h
    unfold delete_note
    rw [h]
  · intro note h hne
    unfold delete_note
    rw [h]
    simp [hne]

/-- C4, witness: the theorem applied to a one-note store, at a missing id
and at a mismatched author. -/
theorem c4_existence_then_ownership_witness :
    delete_note [helpfulNote] 99 1 = DeleteResult.notFound ∧
    delete_note [helpfulNote] 1 2 = DeleteResult.ownershipViolation :=
  ⟨(c4_existence_then_ownership [helpfulNote] 99 1).1 (by decide),
   (c4_existence_then_ownership [helpfulNote] 1 2).2 helpfulNote (by decide) (by decide)⟩

/-- C5: the scored-notes summary statistics: total_notes counts every note
of the promise regardless of status, helpful_notes_count those with the
helpful status, needs_more_ratings_count those needing more ratings, and
last_scored_at is the maximum of the non-NULL scored_at timestamps (absent
when there are none); in particular statuses 2 x NEEDS_MORE_RATINGS +
1 x CURRENTLY_RATED_HELPFUL give totals 3 / 1 / 2. -/
theorem c5_summary_statistics :
    (∀ (db : List Note) (pid : Nat) (resp : ScoredNotesResponse),
      get_scored_notes_for_promise db pid = some resp →
      resp.total_notes = (db.filter (fun n => n.promise_id == pid)).length ∧
      resp.helpful_notes_count =
        ((db.filter (fun n => n.promise_id == pid)).filter
          (fun n => n.status == CURRENTLY_RATED_HELPFUL)).length ∧
      resp.needs_more_ratings_count =
        ((db.filter (fun n => n.promise_id == pid)).filter
          (fun n => n.status == NEEDS_MORE_RATINGS)).length ∧
      resp.last_scored_at =
        ((db.filter (fun n => n.promise_id == pid)).filterMap
          (fun n => n.scored_at)).max?) ∧
    (get_scored_notes_for_promise statsExampleDb 1).map
      (fun r => (r.total_notes, r.helpful_notes_count, r.needs_more_ratings_count))
      = some (3, 1, 2) := by
  constructor
  · intro db pid resp h
    rw [get_scored_notes_for_promise] at h
    rw [Option.map_eq_some'] at h
    obtain ⟨resps, hm, hresp⟩ := h
    subst hresp
    refine ⟨rfl, rfl, rfl, ?_⟩
    exact lastScored_eq_max _
  · decide

/-- C5, witness: the general statement applied to the empty store. -/
theorem c5_summary_statistics_witness :
    emptyScoredResp.total_notes = (([] : List Note).filter (fun n => n.promise_id == 1)).length ∧
    emptyScoredResp.helpful_notes_count =
      ((([] : List Note).filter (fun n => n.promise_id == 1)).filter
        (fun n => n.status == CURRENTLY_RATED_HELPFUL)).length ∧
    emptyScoredResp.needs_more_ratings_count =
      ((([] : List Note).filter (fun n => n.promise_id == 1)).filter
        (fun n => n.status == NEEDS_MORE_RATINGS)).length ∧
    emptyScoredResp.last_scored_at =
      ((([] : List Note).filter (fun n => n.promise_id == 1)).filterMap
        (fun n => n.scored_at)).max? :=
  c5_summary_statistics.1 [] 1 emptyScoredResp (by decide)

/-- C6: the classification breakdown counts only the promise's
CURRENTLY_RATED_HELPFUL notes per classification value; every returned
entry has a positive count equal to the number of helpful notes with that
classification, every classification with a helpful note is present, and
so zero-count classifications are omitted — e.g. one helpful
"promise_kept" note plus one non-helpful "promise_broken" note yield
exactly `promise_kept = 1`. -/
theorem c6_classification_breakdown :
    (∀ (db : List Note) (pid : Nat) (c : String) (k : Nat),
      (c, k) ∈ (get_notes_by_classification db pid).classifications →
      0 < k ∧
      k = ((db.filter (fun n =>
            n.promise_id == pid && n.status == CURRENTLY_RATED_HELPFUL)).filter
          (fun n => n.classification == c)).length) ∧
    (∀ (db : List Note) (pid : Nat) (c : String),
      0 < ((db.filter (fun n =>
            n.promise_id == pid && n.status == CURRENTLY_RATED_HELPFUL)).filter
          (fun n => n.classification == c)).length →
      ∃ k, (c, k) ∈ (get_notes_by_classification db pid).classifications) ∧
    (get_notes_by_classification classExampleDb 1).classifications
      = [("promise_kept", 1)] := by
  refine ⟨?_, ?_, by decide⟩
  · intro db pid c k h
    rw [get_notes_by_classification] at h
    rw [List.mem_map] at h
    obtain ⟨c', hc', heq⟩ := h
    injection heq with h1 h2
    subst h1
    subst h2
    constructor
    · rw [List.mem_dedup, List.mem_map] at hc'
      obtain ⟨n, hn, hcl⟩ := hc'
      refine List.length_pos_of_mem (a := n) ?_
      rw [List.mem_filter]
      exact ⟨hn, by simp [hcl]⟩
    · rfl
  · intro db pid c h
    have hex : ∃ n, n ∈ (db.filter (fun n =>
        n.promise_id == pid && n.status == CURRENTLY_RATED_HELPFUL)).filter
          (fun n => n.classification == c) := by
      rcases List.exists_mem_of_ne_nil _ (List.ne_nil_of_length_pos h) with ⟨n, hn⟩
      exact ⟨n, hn⟩
    obtain ⟨n, hn⟩ := hex
    rw [List.mem_filter] at hn
    refine ⟨((db.filter (fun n =>
        n.promise_id == pid && n.status == CURRENTLY_RATED_HELPFUL)).filter
          (fun n => n.classification == c)).length, ?_⟩
    rw [get_notes_by_classification, List.mem_map]
    refine ⟨c, ?_, rfl⟩
    rw [List.mem_dedup, List.mem_map]
    exact ⟨n, hn.1, by simpa using hn.2⟩

/-- C6, witness: the first conjunct applied to the two-note example store,
at the helpful classification's entry. -/
theorem c6_classification_breakdown_witness :
    0 < 1 ∧
    1 = ((classExampleDb.filter (fun n =>
          n.promise_id == 1 && n.status == CURRENTLY_RATED_HELPFUL)).filter
        (fun n => n.classification == "promise_kept")).length :=
  c6_classification_breakdown.1 classExampleDb 1 "promise_kept" 1 (by decide)

/-- C7: serialising a list of source strings at note creation and
deserialising it on read is lossless — `loads (dumps xs) = some xs` for
every list of strings (the empty list included), and consequently the
response produced for a freshly created note carries exactly the requested
sources. -/
theorem c7_sources_round_trip :
    (∀ xs : List String, loads (dumps xs) = some xs) ∧
    (∀ (db : List Note) (req : CreateNoteRequest) (id now : Nat),
      ((create_note db req id now).2).map (fun r => r.sources) = some req.sources) := by
  refine ⟨loads_dumps, ?_⟩
  intro db req id now
  have hne : dumps req.sources ≠ "" := by
    intro h
    have := congrArg String.data h
    simp [dumps] at this
  have hd : decodeSources (some (dumps req.sources)) = some req.sources := by
    show (if dumps req.sources = "" then some [] else loads (dumps req.sources))
        = some req.sources
    rw [if_neg hne, loads_dumps]
  rw [create_note]
  rw [note_to_response]
  rw [hd]
  rfl

/-- C8: on both list endpoints the page size is validated to be at most 100
(a limit of 500 is rejected), every accepted call returns at most 100
records, and an omitted limit behaves exactly as the default page size
50. -/
theorem c8_pagination_bound_and_default :
    (∀ (db : List Note) (a : Int) (st : Option String) (lim : Option Int) (off : Nat)
        (r : List NoteResponse),
      get_notes_by_author db a st lim off = some r → r.length ≤ 100) ∧
    (∀ (db : List Note) (a : Int) (st : Option String) (off : Nat),
      get_notes_by_author db a st none off = get_notes_by_author db a st (some 50) off) ∧
    (∀ (db : List Note) (a : Int) (st : Option String) (off : Nat),
      get_notes_by_author db a st (some 500) off = none) ∧
    (∀ (db : List Note) (pid : Nat) (st : Option String) (lim : Option Int) (off : Nat)
        (r : List NoteResponse),
      get_notes_for_promise db pid st lim off = some r → r.length ≤ 100) ∧
    (∀ (db : List Note) (pid : Nat) (st : Option String) (off : Nat),
      get_notes_for_promise db pid st none off = get_notes_for_promise db pid st (some 50) off) ∧
    (∀ (db : List Note) (pid : Nat) (st : Option String) (off : Nat),
      get_notes_for_promise db pid st (some 500) off = none) := by
  refine ⟨?_, fun _ _ _ _ => rfl, fun _ _ _ _ => rfl, ?_, fun _ _ _ _ => rfl,
    fun _ _ _ _ => rfl⟩
  · intro db a st lim off r h
    rw [get_notes_by_author] at h
    by_cases hl : lim.getD 50 > 100
    · rw [if_pos hl] at h
      cases h
    · rw [if_neg hl] at h
      have := mapOpt_length h
      rw [this]
      refine le_trans (List.length_take_le _ _) ?_
      omega
  · intro db pid st lim off r h
    rw [get_notes_for_promise] at h
    by_cases hl : lim.getD 50 > 100
    · rw [if_pos hl] at h
      cases h
    · rw [if_neg hl] at h
      have := mapOpt_length h
      rw [this]
      refine le_trans (List.length_take_le _ _) ?_
      omega

/-- C8, witness: both bounded-length conjuncts applied to a call on the
empty store with all defaults. -/
theorem c8_pagination_bound_and_default_witness :
    ([] : List NoteResponse).length ≤ 100 ∧ ([] : List NoteResponse).length ≤ 100 :=
  ⟨c8_pagination_bound_and_default.1 [] 1 none none 0 [] (by decide),
   (c8_pagination_bound_and_default.2.2.2).1 [] 1 none none 0 [] (by decide)⟩

/-- C9: the scored-notes ranking is deterministic — the ranking function is
a pure function of the fetched note list, so equal inputs give equal
outputs — and stable: two notes with equal sort keys (same tier, equal or
both-absent effective intercepts) keep their input relative order in the
output. -/
theorem c9_deterministic_stable_ranking :
    ∀ (notes : List Note) (a b : Note),
      sortScoredNotes notes = sortScoredNotes notes ∧
      ([a, b].Sublist notes → sortKey a = sortKey b →
        [a, b].Sublist (sortScoredNotes notes)) := by
  intro notes a b
  refine ⟨rfl, ?_⟩
  intro hsub hkey
  refine List.pair_sublist_insertionSort ?_ hsub
  unfold noteLE sortKeyLE
  rw [hkey]
  exact Or.inr ⟨rfl, le_refl _⟩

/-- C9, witness: stability applied to two adjacent notes with equal sort
keys. -/
theorem c9_deterministic_stable_ranking_witness :
    [tieNoteA, tieNoteB].Sublist (sortScoredNotes [tieNoteA, tieNoteB]) :=
  (c9_deterministic_stable_ranking [tieNoteA, tieNoteB] tieNoteA tieNoteB).2
    (by decide) (by decide)

/-- C10: the scored-notes response never drops, duplicates or paginates:
its notes list is the converted image of a permutation of the promise's
entire stored note set, and its length equals total_notes. -/
theorem c10_ranking_is_permutation :
    ∀ (db : List Note) (pid : Nat) (resp : ScoredNotesResponse),
      get_scored_notes_for_promise db pid = some resp →
      resp.notes.length = resp.total_notes ∧
      ∃ ranked : List Note,
        ranked.Perm (db.filter (fun n => n.promise_id == pid)) ∧
        mapOpt note_to_response ranked = some resp.notes := by
  intro db pid resp h
  rw [get_scored_notes_for_promise, Option.map_eq_some'] at h
  obtain ⟨resps, hm, hresp⟩ := h
  subst hresp
  refine ⟨?_, sortScoredNotes (db.filter (fun n => n.promise_id == pid)), ?_, hm⟩
  · have h1 := mapOpt_length hm
    rw [h1]
    exact List.length_insertionSort noteLE _
  · exact List.perm_insertionSort noteLE _

/-- C10, witness: the theorem applied to the empty store. -/
theorem c10_ranking_is_permutation_witness :
    emptyScoredResp.notes.length = emptyScoredResp.total_notes ∧
    ∃ ranked : List Note,
      ranked.Perm (([] : List Note).filter (fun n => n.promise_id == 1)) ∧
      mapOpt note_to_response ranked = some emptyScoredResp.notes :=
  c10_ranking_is_permutation [] 1 emptyScoredResp (by decide)
